import Mathlib

/-!
Verification of the stratified sampling and pattern-matching subsystem of the
phonetics-annotation repository.  The Python sources are shallowly embedded:

* the global `random` generator (seeded in `SamplingStrategy.__init__`) is modelled
  as an abstract entropy stream plus a position (`RNG`); `random.seed(s)` resets the
  position, so a seeded generator is `seedRNG stream`;
* `random.sample`'s partial-Fisher-Yates draw and `random.shuffle`'s Fisher-Yates
  loop are translated step by step; a `ValueError` raised by `random.sample`
  (quota larger than the population) is modelled as `Option.none`;
* Python `int()` on a nonnegative product `sample_size * ratio` is truncation
  toward zero (`pyInt`), with the ratio as an exact rational.
-/

namespace PhoneticsAnno

/-- State of the process-global `random` generator: an abstract entropy stream
together with the number of draws already consumed. -/
structure RNG where
  stream : Nat → Nat
  pos : Nat

/-- `random._randbelow n`: one draw from the stream, reduced mod `n`. -/
def randbelow (g : RNG) (n : Nat) : Nat × RNG :=
  (g.stream g.pos % n, ⟨g.stream, g.pos + 1⟩)

/-- `random.seed s` (run in `SamplingStrategy.__init__`): the generator state is a
function of the seed alone; the stream determined by the seed starts at position 0. -/
def seedRNG (stream : Nat → Nat) : RNG := ⟨stream, 0⟩

/-- In-place swap `x[i], x[j] = x[j], x[i]` on a Python list, as a pure function.
Out-of-range indices leave the list unchanged (unreachable in the modelled code). -/
def listSwap (l : List α) (i j : Nat) : List α :=
  if h : i < l.length ∧ j < l.length then
    (l.set i (l.get ⟨j, h.2⟩)).set j (l.get ⟨i, h.1⟩)
  else l

/-- The selection loop of `random.sample` (CPython's in-pool branch):
at each step draw `j` below the current pool size, take `pool[j]`, move the last
pool element into slot `j` and shrink the pool by one. -/
def pySampleAux (g : RNG) (pool : List α) (k : Nat) : List α × RNG :=
  match k, pool with
  | 0, _ => ([], g)
  | _ + 1, [] => ([], g)
  | k + 1, a :: rest =>
    let p := a :: rest
    let j := (randbelow g p.length).1
    let g1 := (randbelow g p.length).2
    let x := p.getD j a
    let p2 := (p.set j (p.getLast (List.cons_ne_nil a rest))).dropLast
    let r := pySampleAux g1 p2 k
    (x :: r.1, r.2)

/-- `random.sample(population, k)`: raises `ValueError` (here `none`) unless
`0 ≤ k ≤ len(population)`, otherwise draws `k` items without replacement. -/
def pySample (g : RNG) (pop : List α) (k : Int) : Option (List α × RNG) :=
  if 0 ≤ k ∧ k ≤ (pop.length : Int) then some (pySampleAux g pop k.toNat) else none

/-- The Fisher-Yates loop of `random.shuffle`: `for i in reversed(range(1, n)):
j = randbelow(i+1); swap x[i], x[j]`.  The argument `i` is the current loop index. -/
def shuffleFrom : RNG → List α → Nat → List α × RNG
  | g, l, 0 => (l, g)
  | g, l, i + 1 =>
    let j := (randbelow g (i + 2)).1
    let g1 := (randbelow g (i + 2)).2
    shuffleFrom g1 (listSwap l (i + 1) j) i

/-- `random.shuffle(x)` on a list of length `n` runs the loop from `i = n - 1`. -/
def pyShuffle (g : RNG) (l : List α) : List α × RNG := shuffleFrom g l (l.length - 1)

/-- Python `int()` applied to an exact rational: truncation toward zero. -/
def pyInt (q : ℚ) : Int := if 0 ≤ q then ⌊q⌋ else ⌈q⌉

/-- Quota computation of `StratifiedSampler.sample` (strategies.py lines 105-118):
`dialogue_sample_size = int(sample_size * dialogue_ratio)`,
`non_dialogue_sample_size = sample_size - dialogue_sample_size`, followed by the two
unconditional shortage corrections, dialogue stratum first. -/
def finalQuotas (dlgLen ndLen n : Nat) (d0 : Int) : Int × Int :=
  let p1 : Int × Int :=
    if (dlgLen : Int) < d0 then ((dlgLen : Int), (n : Int) - (dlgLen : Int))
    else (d0, (n : Int) - d0)
  if (ndLen : Int) < p1.2 then ((n : Int) - (ndLen : Int), (ndLen : Int)) else p1

/-- One stratum draw of `StratifiedSampler.sample` (strategies.py lines 121-122):
`random.sample(stratum, size) if size > 0 else []`. -/
def drawQuota (g : RNG) (pop : List α) (k : Int) : Option (List α × RNG) :=
  if 0 < k then pySample g pop k else some ([], g)

/-- Body of `StratifiedSampler.sample` after the partition: quota computation,
the two draws, concatenation and the final shuffle.  A `none` is the
`ValueError` escaping from `random.sample`. -/
def sampleCore (g : RNG) (dlg nd : List α) (n : Nat) (r : ℚ) : Option (List α × RNG) :=
  (drawQuota g dlg (finalQuotas dlg.length nd.length n (pyInt ((n : ℚ) * r))).1).bind fun p1 =>
    (drawQuota p1.2 nd (finalQuotas dlg.length nd.length n (pyInt ((n : ℚ) * r))).2).bind
      fun p2 => some (pyShuffle p2.2 (p1.1 ++ p2.1))

/-- `StratifiedSampler.sample(data, sample_size, dialogue_ratio)` (strategies.py
lines 88-132): partition `data` by the boolean classifier preserving order, then
run the quota/draw/shuffle pipeline. -/
def StratifiedSampler.sample (g : RNG) (data : List α) (n : Nat) (r : ℚ)
    (classify : α → Bool) : Option (List α × RNG) :=
  sampleCore g (data.filter classify) (data.filter fun x => !classify x) n r

/-! ## Patterns, generator, filter -/

/-- A pattern token, i.e. one token dict of a pattern: its `"lower"` entry when
present (the sources read it with `token.get("lower", "")`). -/
structure PatternTok where
  lower : Option String
deriving DecidableEq

/-- `Pattern` (generator.py lines 17-21): a label and a token list. -/
structure Pattern where
  label : String
  pattern : List PatternTok
deriving DecidableEq

/-- The dedup key of `PatternFilter.deduplicate_patterns` (filters.py line 66):
`(pattern.label, tuple(token.get("lower", "") for token in pattern.pattern))`. -/
def patternKey (p : Pattern) : String × List String :=
  (p.label, p.pattern.map fun t => t.lower.getD "")

/-- Loop of `PatternFilter.deduplicate_patterns` (filters.py lines 59-72); the
Python `seen` set is modelled as the list of keys inserted so far. -/
def dedupAux (seen : List (String × List String)) : List Pattern → List Pattern
  | [] => []
  | p :: rest =>
    if patternKey p ∈ seen then dedupAux seen rest
    else p :: dedupAux (patternKey p :: seen) rest

/-- `PatternFilter.deduplicate_patterns`: keep the first occurrence of each
`(label, token-lowers)` key, preserving order. -/
def PatternFilter.deduplicatePatterns (ps : List Pattern) : List Pattern :=
  dedupAux [] ps

/-- The pattern-generation settings consulted by `_is_valid_pattern`
(config/settings.py, `PatternSettings`: `min_pattern_length`,
`max_pattern_length`, `enable_stopword_filter`). -/
structure GenSettings where
  minPatternLength : Nat
  maxPatternLength : Nat
  enableStopwordFilter : Bool
deriving DecidableEq

/-- `PatternGenerator._is_valid_pattern` (generator.py lines 98-116): reject the
empty string, already-seen variants, `len < min_pattern_length`,
`len > max_pattern_length`, and (when the filter is enabled) stopwords. -/
def PatternGenerator.isValidPattern (cfg : GenSettings) (stopwords : List String)
    (seen : List String) (p : String) : Bool :=
  if p = "" then false
  else if p ∈ seen then false
  else if p.length < cfg.minPatternLength then false
  else if cfg.maxPatternLength < p.length then false
  else if cfg.enableStopwordFilter = true ∧ p ∈ stopwords then false
  else true

/-- Python `str.lower` (the corpora are ASCII text, where `Char.toLower`
coincides with Python's lowercasing). -/
def pyLower (s : String) : String := String.mk (s.toList.map Char.toLower)

/-- `re.sub(r"[^a-zA-Z0-9\s]", "", w)` (generator.py lines 44 and 82): keep only
ASCII alphanumerics and whitespace. -/
def variantClean (s : String) : String :=
  String.mk (s.toList.filter fun ch => ch.isAlphanum || ch.isWhitespace)

/-- Helper for Python `str.split()`: `acc` holds the current in-progress word,
reversed. -/
def pySplitAux (acc : List Char) : List Char → List String
  | [] => if acc.isEmpty then [] else [String.mk acc.reverse]
  | ch :: rest =>
    if ch.isWhitespace then
      if acc.isEmpty then pySplitAux [] rest
      else String.mk acc.reverse :: pySplitAux [] rest
    else pySplitAux (ch :: acc) rest

/-- Python `str.split()` with no argument: split on runs of whitespace,
producing no empty tokens. -/
def pySplit (s : String) : List String := pySplitAux [] s.toList

/-- The normalized variants of one surface word (generator.py lines 80-83): the
Python set `{word.lower(), pattern_to_keep.sub("", word.lower())}`, of size one
when cleaning changes nothing. -/
def wordVariants (w : String) : List String :=
  let lw := pyLower w
  if variantClean lw = lw then [lw] else [lw, variantClean lw]

/-- Acceptance of a single variant (generator.py lines 85-94): when valid, emit
`Pattern(label="PHONETIC", pattern=[{"lower": t} for t in variant.split()])` and
record the variant in `seen_patterns`.  The accumulator is the pair
(emitted patterns, accepted variants in order). -/
def extractVariant (cfg : GenSettings) (sw : List String)
    (acc : List Pattern × List String) (v : String) : List Pattern × List String :=
  if PatternGenerator.isValidPattern cfg sw acc.2 v then
    (acc.1 ++ [{ label := "PHONETIC", pattern := (pySplit v).map fun t => ⟨some t⟩ }],
      acc.2 ++ [v])
  else acc

/-- `_extract_patterns_from_gb_item`, inner loop over the variants of one word. -/
def extractWord (cfg : GenSettings) (sw : List String)
    (acc : List Pattern × List String) (w : String) : List Pattern × List String :=
  (wordVariants w).foldl (extractVariant cfg sw) acc

/-- `_extract_patterns_from_gb_item` (generator.py lines 71-96); an item
contributes the keys of its `words` mapping in insertion order. -/
def extractItem (cfg : GenSettings) (sw : List String)
    (acc : List Pattern × List String) (words : List String) : List Pattern × List String :=
  words.foldl (extractWord cfg sw) acc

/-- `generate_from_gb_data` over a whole corpus (each item reduced to its
`words` keys): `seen_patterns` starts empty and is never reset between items. -/
def runExtraction (cfg : GenSettings) (sw : List String)
    (corpus : List (List String)) : List Pattern × List String :=
  corpus.foldl (extractItem cfg sw) ([], [])

/-- The pattern list returned by `generate_from_gb_data`. -/
def PatternGenerator.generatePatterns (cfg : GenSettings) (sw : List String)
    (corpus : List (List String)) : List Pattern :=
  (runExtraction cfg sw corpus).1

/-! ## Classifier and pattern loading -/

/-- `GeminiDataItem` (loaders.py lines 27-34): a dialogue utterance with
optional speaker/addressee metadata.  It declares no other field. -/
structure GeminiDataItem where
  utterance : String
  speaker : Option String := none
  speaker_in_char_list : Option Bool := none
  addressee : Option String := none
  addressee_in_char_list : Option Bool := none

/-- Token cleaning in `_is_phonetized_sample` (strategies.py line 209):
`''.join(c for c in word if c.isalnum() or c in "'-")` — keep alphanumerics,
apostrophe (code 39) and hyphen (code 45). -/
def cleanWord (w : String) : String :=
  String.mk (w.toList.filter fun ch =>
    ch.isAlphanum || ch = Char.ofNat 39 || ch = Char.ofNat 45)

/-- `StratifiedSampler._is_phonetized_sample` on a Gemini (dialogue) item
(strategies.py lines 202-214): lowercase the utterance, split on whitespace,
clean each token, and return true iff some cleaned token is a member of the
loaded pattern set (the loop returns on the first match). -/
def StratifiedSampler.isPhonetizedGemini (phoneticPatterns : Finset String)
    (item : GeminiDataItem) : Bool :=
  (pySplit (pyLower item.utterance)).any fun w => decide (cleanWord w ∈ phoneticPatterns)

/-- One line of a patterns file, as `_load_patterns` (strategies.py lines 56-72)
sees it: blank lines (`not line.strip()`) are skipped before parsing; a line on
which `json.loads` (or the subsequent subscripting) raises is `malformed`; an
otherwise parsed object carries its `pattern` field, `none` when the key is
missing, else the token list. -/
inductive PatternLine where
  | blank : PatternLine
  | malformed : PatternLine
  | record : Option (List PatternTok) → PatternLine
deriving DecidableEq

/-- Whether a line raises during parsing. -/
def PatternLine.isMalformed : PatternLine → Bool
  | .malformed => true
  | _ => false

/-- Loop of `_load_patterns`: the whole `for` loop runs inside a single
`try/except`, so the first raising line aborts the loop and the function
returns (without raising) the set collected so far; records with a missing or
empty (falsy) `pattern` field are skipped individually; a non-empty first-token
text not in the exceptions set is added. -/
def loadPatternsAux (exceptions : Finset String) :
    List PatternLine → Finset String → Finset String
  | [], acc => acc
  | .blank :: rest, acc => loadPatternsAux exceptions rest acc
  | .malformed :: _, acc => acc
  | .record none :: rest, acc => loadPatternsAux exceptions rest acc
  | .record (some []) :: rest, acc => loadPatternsAux exceptions rest acc
  | .record (some (t :: _)) :: rest, acc =>
    loadPatternsAux exceptions rest
      (if t.lower.getD "" ≠ "" ∧ t.lower.getD "" ∉ exceptions
        then insert (t.lower.getD "") acc else acc)

/-- `StratifiedSampler._load_patterns`: run the loop with an empty set. -/
def StratifiedSampler.loadPatterns (exceptions : Finset String)
    (lines : List PatternLine) : Finset String :=
  loadPatternsAux exceptions lines ∅

/-- The set of first-token texts of the well-formed pattern records of a list of
lines (what the spec expects the whole file to contribute). -/
def recordedTokens (exceptions : Finset String) : List PatternLine → Finset String
  | [] => ∅
  | .record (some (t :: _)) :: rest =>
    if t.lower.getD "" ≠ "" ∧ t.lower.getD "" ∉ exceptions
      then insert (t.lower.getD "") (recordedTokens exceptions rest)
      else recordedTokens exceptions rest
  | _ :: rest => recordedTokens exceptions rest

/-! ## Formatter -/

/-- The `meta` dict of a formatted Gemini record (formatter.py lines 39-48). -/
structure GeminiMeta where
  source : String
  source_file : String
  speaker : Option String
  speaker_in_char_list : Option Bool
  addressee : Option String
  addressee_in_char_list : Option Bool
  is_dialogue : Bool
  is_phonetized : Bool

/-- A formatted record `{"text": ..., "meta": {...}}`. -/
structure ProdigyGeminiRecord where
  text : String
  meta : GeminiMeta

/-- Pydantic attribute access `gemini_item.source_file` (formatter.py line 41):
`GeminiDataItem` declares no `source_file` field and nothing in the repository
ever sets one, so the access raises `AttributeError` — modelled as `none`. -/
def GeminiDataItem.sourceFileAttr (_ : GeminiDataItem) : Option String := none

/-- `ProdigyFormatter.format_gemini_data` (formatter.py lines 35-49): builds the
record dict; evaluating the `meta` dict display reads `gemini_item.source_file`,
so the `AttributeError` escapes before any record is produced. -/
def ProdigyFormatter.formatGeminiData (item : GeminiDataItem) (isPhonetized : Bool) :
    Option ProdigyGeminiRecord :=
  (item.sourceFileAttr).map fun sf =>
    { text := item.utterance
      meta :=
        { source := "gemini_data"
          source_file := sf
          speaker := item.speaker
          speaker_in_char_list := item.speaker_in_char_list
          addressee := item.addressee
          addressee_in_char_list := item.addressee_in_char_list
          is_dialogue := true
          is_phonetized := isPhonetized } }

/-! ## Permutation facts about the random primitives -/

theorem cons_get_set_perm (t : List α) :
    ∀ (m : Nat) (h : m < t.length) (x : α),
      List.Perm (t.get ⟨m, h⟩ :: t.set m x) (x :: t) := by
  induction t with
  | nil => intro m h x; simp at h
  | cons a s ih =>
    intro m h x
    cases m with
    | zero => simpa using List.Perm.swap x a s
    | succ k =>
      have h' : k < s.length := Nat.succ_lt_succ_iff.mp (by simpa using h)
      have h1 : List.Perm (s.get ⟨k, h'⟩ :: a :: s.set k x) (a :: s.get ⟨k, h'⟩ :: s.set k x) :=
        List.Perm.swap a (s.get ⟨k, h'⟩) (s.set k x)
      have h2 : List.Perm (a :: s.get ⟨k, h'⟩ :: s.set k x) (a :: (x :: s)) := (ih k h' x).cons a
      have h3 : List.Perm (a :: x :: s) (x :: a :: s) := List.Perm.swap x a s
      simpa using h1.trans (h2.trans h3)

theorem get_set_get_set_perm (l : List α) :
    ∀ (i j : Nat) (hi : i < l.length) (hj : j < l.length),
      List.Perm ((l.set i (l.get ⟨j, hj⟩)).set j (l.get ⟨i, hi⟩)) l := by
  induction l with
  | nil => intro i j hi; simp at hi
  | cons a t ih =>
    intro i j hi hj
    cases i with
    | zero =>
      cases j with
      | zero => simp
      | succ m =>
        have hm : m < t.length := Nat.succ_lt_succ_iff.mp (by simpa using hj)
        simpa using cons_get_set_perm t m hm a
    | succ k =>
      cases j with
      | zero =>
        have hk : k < t.length := Nat.succ_lt_succ_iff.mp (by simpa using hi)
        simpa using cons_get_set_perm t k hk a
      | succ m =>
        have hk : k < t.length := Nat.succ_lt_succ_iff.mp (by simpa using hi)
        have hm : m < t.length := Nat.succ_lt_succ_iff.mp (by simpa using hj)
        simpa using (ih k m hk hm).cons a

theorem listSwap_perm (l : List α) (i j : Nat) : List.Perm (listSwap l i j) l := by
  unfold listSwap
  split
  · next h => exact get_set_get_set_perm l i j h.1 h.2
  · exact List.Perm.refl l

theorem shuffleFrom_perm :
    ∀ (i : Nat) (g : RNG) (l : List α), List.Perm (shuffleFrom g l i).1 l := by
  intro i
  induction i with
  | zero => intro g l; exact List.Perm.refl l
  | succ i ih =>
    intro g l
    exact (ih _ _).trans (listSwap_perm l (i + 1) _)

theorem pyShuffle_perm (g : RNG) (l : List α) : List.Perm (pyShuffle g l).1 l :=
  shuffleFrom_perm _ g l

/-- Unfolding equation for one selection step of `pySampleAux`. -/
theorem pySampleAux_succ (g : RNG) (a : α) (rest : List α) (k : Nat) :
    pySampleAux g (a :: rest) (k + 1) =
      (((a :: rest).getD (randbelow g (rest.length + 1)).1 a) ::
        (pySampleAux (randbelow g (rest.length + 1)).2
          (((a :: rest).set (randbelow g (rest.length + 1)).1
            ((a :: rest).getLast (List.cons_ne_nil a rest))).dropLast) k).1,
       (pySampleAux (randbelow g (rest.length + 1)).2
          (((a :: rest).set (randbelow g (rest.length + 1)).1
            ((a :: rest).getLast (List.cons_ne_nil a rest))).dropLast) k).2) := rfl

theorem pySampleAux_length :
    ∀ (k : Nat) (g : RNG) (pool : List α), k ≤ pool.length →
      (pySampleAux g pool k).1.length = k := by
  intro k
  induction k with
  | zero => intro g pool _; rfl
  | succ k ih =>
    intro g pool hk
    match pool with
    | [] => simp at hk
    | a :: rest =>
      rw [pySampleAux_succ]
      have hk' : k ≤ rest.length := by simpa using hk
      have hrec := ih (randbelow g (rest.length + 1)).2
        (((a :: rest).set (randbelow g (rest.length + 1)).1
          ((a :: rest).getLast (List.cons_ne_nil a rest))).dropLast)
        (by simpa using hk')
      simp only [List.length_cons]
      omega

theorem pySampleAux_subset :
    ∀ (k : Nat) (g : RNG) (pool : List α) (x : α), x ∈ (pySampleAux g pool k).1 → x ∈ pool := by
  intro k
  induction k with
  | zero => intro g pool x hx; simp [pySampleAux] at hx
  | succ k ih =>
    intro g pool x hx
    match pool with
    | [] => simp [pySampleAux] at hx
    | a :: rest =>
      rw [pySampleAux_succ, List.mem_cons] at hx
      rcases hx with hx | hx
      · subst hx
        by_cases hj : (randbelow g (rest.length + 1)).1 < (a :: rest).length
        · rw [List.getD_eq_getElem _ _ hj]
          exact List.getElem_mem hj
        · rw [List.getD_eq_default _ _ (Nat.le_of_not_lt hj)]
          exact List.mem_cons_self a rest
      · have hmem := ih _ _ _ hx
        have hsub := List.dropLast_sublist ((a :: rest).set (randbelow g (rest.length + 1)).1
          ((a :: rest).getLast (List.cons_ne_nil a rest)))
        have hset := hsub.subset hmem
        rcases List.mem_or_eq_of_mem_set hset with h | h
        · exact h
        · subst h; exact List.getLast_mem _

/-! ## Quota arithmetic -/

theorem pyInt_quota_bounds (n : Nat) (r : ℚ) (h0 : 0 ≤ r) (h1 : r ≤ 1) :
    0 ≤ pyInt ((n : ℚ) * r) ∧ pyInt ((n : ℚ) * r) ≤ (n : Int) := by
  have hq : 0 ≤ (n : ℚ) * r := mul_nonneg (by positivity) h0
  unfold pyInt
  rw [if_pos hq]
  refine ⟨Int.floor_nonneg.mpr hq, ?_⟩
  have hle : (n : ℚ) * r ≤ (n : ℚ) := by
    have := mul_le_mul_of_nonneg_left h1 (show (0 : ℚ) ≤ (n : ℚ) by positivity)
    simpa using this
  have := Int.floor_le_floor hle
  simpa using this

theorem finalQuotas_spec (D N n : Nat) (d0 : Int) (hd0 : 0 ≤ d0) (hdn : d0 ≤ (n : Int)) :
    0 ≤ (finalQuotas D N n d0).1 ∧ 0 ≤ (finalQuotas D N n d0).2 ∧
    (finalQuotas D N n d0).1 + (finalQuotas D N n d0).2 = (n : Int) ∧
    (((finalQuotas D N n d0).1 ≤ (D : Int) ∧ (finalQuotas D N n d0).2 ≤ (N : Int)) ↔
      (n : Int) ≤ (D : Int) + (N : Int)) := by
  by_cases hA : (D : Int) < d0
  · by_cases hB : (N : Int) < (n : Int) - (D : Int)
    · simp only [finalQuotas, if_pos hA, if_pos hB]
      refine ⟨by omega, by omega, by omega, ?_⟩
      constructor
      · rintro ⟨h, -⟩; omega
      · intro h; omega
    · simp only [finalQuotas, if_pos hA, if_neg hB]
      refine ⟨by omega, by omega, by omega, ?_⟩
      constructor
      · rintro ⟨-, h⟩; omega
      · intro h; omega
  · by_cases hB : (N : Int) < (n : Int) - d0
    · simp only [finalQuotas, if_neg hA, if_pos hB]
      refine ⟨by omega, by omega, by omega, ?_⟩
      constructor
      · rintro ⟨h, -⟩; omega
      · intro h; omega
    · simp only [finalQuotas, if_neg hA, if_neg hB]
      refine ⟨by omega, by omega, by omega, ?_⟩
      constructor
      · rintro ⟨-, -⟩; omega
      · intro h; omega

/-! ## Draw lemmas -/

theorem drawQuota_spec (g : RNG) (pop : List α) (k : Int) (h0 : 0 ≤ k)
    (hk : k ≤ (pop.length : Int)) :
    ∃ out g', drawQuota g pop k = some (out, g') ∧ out.length = k.toNat ∧
      ∀ x ∈ out, x ∈ pop := by
  unfold drawQuota
  by_cases hpos : 0 < k
  · rw [if_pos hpos]
    unfold pySample
    rw [if_pos ⟨h0, hk⟩]
    refine ⟨(pySampleAux g pop k.toNat).1, (pySampleAux g pop k.toNat).2, by simp, ?_, ?_⟩
    · exact pySampleAux_length k.toNat g pop (by omega)
    · exact fun x hx => pySampleAux_subset k.toNat g pop x hx
  · rw [if_neg hpos]
    have hz : k = 0 := le_antisymm (not_lt.mp hpos) h0
    exact ⟨[], g, rfl, by simp [hz], by simp⟩

theorem drawQuota_none (g : RNG) (pop : List α) (k : Int)
    (hk : (pop.length : Int) < k) : drawQuota g pop k = none := by
  unfold drawQuota pySample
  rw [if_pos (by omega : (0 : Int) < k), if_neg (by omega)]

/-! ## Length characterization of the sampling pipeline -/

theorem sampleCore_map_length (g : RNG) (dlg nd : List α) (n : Nat) (r : ℚ)
    (h0 : 0 ≤ r) (h1 : r ≤ 1) :
    ((sampleCore g dlg nd n r).map fun p => p.1.length) =
      if n ≤ dlg.length + nd.length then some n else none := by
  obtain ⟨hb0, hbn⟩ := pyInt_quota_bounds n r h0 h1
  obtain ⟨hq1, hq2, hqsum, hqiff⟩ :=
    finalQuotas_spec dlg.length nd.length n (pyInt ((n : ℚ) * r)) hb0 hbn
  by_cases hn : n ≤ dlg.length + nd.length
  · have hfeas : (finalQuotas dlg.length nd.length n (pyInt ((n : ℚ) * r))).1 ≤ (dlg.length : Int) ∧
        (finalQuotas dlg.length nd.length n (pyInt ((n : ℚ) * r))).2 ≤ (nd.length : Int) :=
      hqiff.mpr (by omega)
    obtain ⟨sd, g1, hsd, hsdlen, -⟩ :=
      drawQuota_spec g dlg (finalQuotas dlg.length nd.length n (pyInt ((n : ℚ) * r))).1 hq1 hfeas.1
    obtain ⟨sn, g2, hsn, hsnlen, -⟩ :=
      drawQuota_spec g1 nd (finalQuotas dlg.length nd.length n (pyInt ((n : ℚ) * r))).2 hq2 hfeas.2
    rw [if_pos hn]
    unfold sampleCore
    rw [hsd, Option.some_bind', hsn, Option.some_bind', Option.map_some']
    have hperm := (pyShuffle_perm g2 (sd ++ sn)).length_eq
    simp only [List.length_append] at hperm
    simp only [Option.some.injEq]
    omega
  · rw [if_neg hn]
    have hinfeas : ¬((finalQuotas dlg.length nd.length n (pyInt ((n : ℚ) * r))).1 ≤ (dlg.length : Int) ∧
        (finalQuotas dlg.length nd.length n (pyInt ((n : ℚ) * r))).2 ≤ (nd.length : Int)) := by
      intro h
      exact hn (by have := hqiff.mp h; omega)
    by_cases hA : (finalQuotas dlg.length nd.length n (pyInt ((n : ℚ) * r))).1 ≤ (dlg.length : Int)
    · have hB : (nd.length : Int) < (finalQuotas dlg.length nd.length n (pyInt ((n : ℚ) * r))).2 := by
        by_contra hB
        exact hinfeas ⟨hA, not_lt.mp hB⟩
      obtain ⟨sd, g1, hsd, -, -⟩ :=
        drawQuota_spec g dlg (finalQuotas dlg.length nd.length n (pyInt ((n : ℚ) * r))).1 hq1 hA
      unfold sampleCore
      rw [hsd, Option.some_bind', drawQuota_none g1 nd _ hB, Option.none_bind']
      rfl
    · unfold sampleCore
      rw [drawQuota_none g dlg _ (not_le.mp hA), Option.none_bind']
      rfl

theorem length_filter_add (c : α → Bool) (l : List α) :
    (l.filter c).length + (l.filter fun x => !c x).length = l.length := by
  induction l with
  | nil => rfl
  | cons a t ih => by_cases h : c a <;> simp [List.filter_cons, h] <;> omega

theorem drawQuota_mem (g : RNG) (pop : List α) (k : Int) (o : List α) (g' : RNG)
    (h : drawQuota g pop k = some (o, g')) : ∀ x ∈ o, x ∈ pop := by
  unfold drawQuota pySample at h
  by_cases hpos : 0 < k
  · rw [if_pos hpos] at h
    split at h
    · have h' : pySampleAux g pop k.toNat = (o, g') := by
        injection h
      intro x hx
      refine pySampleAux_subset k.toNat g pop x ?_
      rw [h']
      exact hx
    · exact absurd h (by simp)
  · rw [if_neg hpos] at h
    have h' : (([] : List α), g) = (o, g') := by injection h
    cases h'
    intro x hx
    simp at hx

/-- Claim C1 (amended).  For every items list, every `target_size n ≥ 0`, every
`positive_ratio r ∈ [0,1]` and every boolean classifier, `StratifiedSampler.sample`
returns normally precisely when `len(items) ≥ n`, and in that case the returned
sequence has length exactly `n` (the rebalanced quotas always sum to `n`); when
`len(items) < n` the call raises `ValueError` (result `none`) instead of
returning a shorter sequence. -/
theorem sample_length_iff_supply (g : RNG) (data : List α) (n : Nat) (r : ℚ)
    (c : α → Bool) (h0 : 0 ≤ r) (h1 : r ≤ 1) :
    ((StratifiedSampler.sample g data n r c).map fun p => p.1.length) =
      if n ≤ data.length then some n else none := by
  unfold StratifiedSampler.sample
  rw [sampleCore_map_length g _ _ n r h0 h1, length_filter_add]

/-- Witness for claim C1's amended theorem at a concrete input: 3 items, quota 2. -/
theorem sample_length_iff_supply_witness :
    ((StratifiedSampler.sample (seedRNG fun _ => 0) [0, 1, 2] 2 (1 / 2)
        (fun x => x % 2 == 0)).map fun p => p.1.length) =
      if 2 ≤ [0, 1, 2].length then some 2 else none :=
  sample_length_iff_supply (seedRNG fun _ => 0) [0, 1, 2] 2 (1 / 2) (fun x => x % 2 == 0)
    (by norm_num) (by norm_num)

/-- Counterexample to claim C1 as stated: on an empty items list with
`target_size = 1` and ratio `1/2` the sampler does not return normally —
`random.sample` raises `ValueError` (modelled by `none`), rather than
returning an empty sequence. -/
theorem sample_empty_items_raises :
    StratifiedSampler.sample (seedRNG fun _ => 0) ([] : List Nat) 1 (1 / 2)
      (fun _ => true) = none := by
  have hpy : pyInt (((1 : Nat) : ℚ) * (1 / 2)) = 0 := by norm_num [pyInt]
  have hq1 : (finalQuotas 0 0 1 (0 : Int)).1 = 1 := by
    simp [finalQuotas]
  unfold StratifiedSampler.sample sampleCore
  rw [show (([] : List Nat).filter fun _ => true) = [] from rfl,
    show (([] : List Nat).filter fun x => !true) = [] from rfl]
  rw [show ([] : List Nat).length = 0 from rfl, hpy, hq1]
  rw [drawQuota_none (seedRNG fun _ => 0) ([] : List Nat) 1 (by simp)]
  rfl

/-- Claim C2.  For a fixed `rng_seed`, the seeded generator state is a function of
the seed alone (`random.seed` in `SamplingStrategy.__init__`); two calls of
`sample` that start from generators seeded with the same seed, on identical
inputs, produce identical output sequences, value for value and order for order. -/
theorem sample_deterministic_for_seed (s1 s2 : Nat → Nat) (data : List α) (n : Nat)
    (r : ℚ) (c : α → Bool) (h : s1 = s2) :
    StratifiedSampler.sample (seedRNG s1) data n r c =
      StratifiedSampler.sample (seedRNG s2) data n r c := by
  rw [h]

/-- Witness for claim C2's theorem at a concrete seed and input. -/
theorem sample_deterministic_for_seed_witness :
    StratifiedSampler.sample (seedRNG fun i => i) [3, 4] 1 (1 / 2) (fun _ => true) =
      StratifiedSampler.sample (seedRNG fun i => i) [3, 4] 1 (1 / 2) (fun _ => true) :=
  sample_deterministic_for_seed (fun i => i) (fun i => i) [3, 4] 1 (1 / 2)
    (fun _ => true) rfl

theorem sampleCore_counts (g : RNG) (dlg nd : List α) (n : Nat) (r : ℚ) (c : α → Bool)
    (h0 : 0 ≤ r) (h1 : r ≤ 1)
    (hdlg : ∀ x ∈ dlg, c x = true) (hnd : ∀ x ∈ nd, c x = false)
    (hN : (nd.length : Int) < (n : Int) - pyInt ((n : ℚ) * r))
    (hD : (n : Int) - (nd.length : Int) ≤ (dlg.length : Int)) :
    ((sampleCore g dlg nd n r).map fun p =>
        (p.1.length, p.1.countP c, p.1.countP fun x => !c x)) =
      some (n, n - nd.length, nd.length) := by
  obtain ⟨hb0, hbn⟩ := pyInt_quota_bounds n r h0 h1
  have hA : ¬((dlg.length : Int) < pyInt ((n : ℚ) * r)) := by omega
  have hq1 : (finalQuotas dlg.length nd.length n (pyInt ((n : ℚ) * r))).1 =
      (n : Int) - (nd.length : Int) := by
    simp only [finalQuotas, if_neg hA, if_pos hN]
  have hq2 : (finalQuotas dlg.length nd.length n (pyInt ((n : ℚ) * r))).2 =
      (nd.length : Int) := by
    simp only [finalQuotas, if_neg hA, if_pos hN]
  obtain ⟨sd, g1, hsd, hsdlen, hsdsub⟩ :=
    drawQuota_spec g dlg ((n : Int) - (nd.length : Int)) (by omega) hD
  obtain ⟨sn, g2, hsn, hsnlen, hsnsub⟩ :=
    drawQuota_spec g1 nd ((nd.length : Int)) (by omega) (by omega)
  unfold sampleCore
  rw [hq1, hq2, hsd, Option.some_bind', hsn, Option.some_bind', Option.map_some']
  have hperm := pyShuffle_perm g2 (sd ++ sn)
  have hlen := hperm.length_eq
  simp only [List.length_append] at hlen
  have hcp : (pyShuffle g2 (sd ++ sn)).1.countP c = sd.length := by
    rw [hperm.countP_eq, List.countP_append]
    have h1 : sd.countP c = sd.length :=
      List.countP_eq_length.mpr fun a ha => hdlg a (hsdsub a ha)
    have h2 : sn.countP c = 0 :=
      List.countP_eq_zero.mpr fun a ha => by simp [hnd a (hsnsub a ha)]
    omega
  have hcn : ((pyShuffle g2 (sd ++ sn)).1.countP fun x => !c x) = sn.length := by
    rw [hperm.countP_eq, List.countP_append]
    have h1 : (sd.countP fun x => !c x) = 0 :=
      List.countP_eq_zero.mpr fun a ha => by simp [hdlg a (hsdsub a ha)]
    have h2 : (sn.countP fun x => !c x) = sn.length :=
      List.countP_eq_length.mpr fun a ha => by simp [hnd a (hsnsub a ha)]
    omega
  rw [hcp, hcn]
  simp only [Option.some.injEq, Prod.mk.injEq]
  omega

/-- Claim C6.  When the negative stratum is under-supplied
(`len(negative) < target_size - floor(target_size * ratio)`) while the positive
stratum can absorb the shifted quota, the negative quota shrinks to
`len(negative)` and the positive quota becomes `target_size - len(negative)`:
the call returns a sequence of length `target_size` containing exactly
`target_size - len(negative)` positive-classified and `len(negative)`
negative-classified items. -/
theorem sample_negative_shortfall_rebalance (g : RNG) (data : List α) (n : Nat)
    (r : ℚ) (c : α → Bool) (h0 : 0 ≤ r) (h1 : r ≤ 1)
    (hN : (((data.filter fun x => !c x).length : Int) < (n : Int) - pyInt ((n : ℚ) * r)))
    (hD : ((n : Int) - ((data.filter fun x => !c x).length : Int) ≤
      ((data.filter c).length : Int))) :
    ((StratifiedSampler.sample g data n r c).map fun p =>
        (p.1.length, p.1.countP c, p.1.countP fun x => !c x)) =
      some (n, n - (data.filter fun x => !c x).length,
        (data.filter fun x => !c x).length) := by
  unfold StratifiedSampler.sample
  refine sampleCore_counts g _ _ n r c h0 h1 ?_ ?_ hN hD
  · exact fun x hx => List.of_mem_filter hx
  · intro x hx
    have := List.of_mem_filter hx
    simpa using this

/-- Witness for claim C6's theorem: 7 positive and 1 negative item,
`target_size = 6`, ratio `1/2`: output of length 6 with 5 positive, 1 negative. -/
theorem sample_negative_shortfall_rebalance_witness :
    ((StratifiedSampler.sample (seedRNG fun _ => 0) [1, 3, 5, 7, 9, 11, 13, 2] 6 (1 / 2)
        (fun x => x % 2 == 1)).map fun p =>
        (p.1.length, p.1.countP (fun x => x % 2 == 1), p.1.countP fun x => !(x % 2 == 1))) =
      some (6, 5, 1) := by
  have hpy : pyInt (((6 : Nat) : ℚ) * (1 / 2)) = 3 := by norm_num [pyInt]
  have hflt : (([1, 3, 5, 7, 9, 11, 13, 2] : List Nat).filter fun x => !(x % 2 == 1)) = [2] := by
    decide
  have h := sample_negative_shortfall_rebalance (seedRNG fun _ => 0)
    [1, 3, 5, 7, 9, 11, 13, 2] 6 (1 / 2) (fun x => x % 2 == 1)
    (by norm_num) (by norm_num)
    (by rw [hflt, hpy]; decide)
    (by rw [hflt]; decide)
  rw [h, hflt]
  decide

/-- Claim C10.  `sample` never draws elements from anywhere but its input: every
element of a successfully returned sequence is an element of the input list (the
input itself is only read — partitioned by `filter` — never written). -/
theorem sample_output_elements_from_input (g : RNG) (data : List α) (n : Nat) (r : ℚ)
    (c : α → Bool) (out : List α) (g' : RNG)
    (h : StratifiedSampler.sample g data n r c = some (out, g')) :
    ∀ x, x ∈ out → x ∈ data := by
  unfold StratifiedSampler.sample sampleCore at h
  rcases hd : drawQuota g (data.filter c)
      (finalQuotas (data.filter c).length (data.filter fun x => !c x).length n
        (pyInt ((n : ℚ) * r))).1 with - | p1
  · rw [hd, Option.none_bind'] at h
    exact absurd h (by simp)
  · rw [hd, Option.some_bind'] at h
    rcases hn : drawQuota p1.2 (data.filter fun x => !c x)
        (finalQuotas (data.filter c).length (data.filter fun x => !c x).length n
          (pyInt ((n : ℚ) * r))).2 with - | p2
    · rw [hn, Option.none_bind'] at h
      exact absurd h (by simp)
    · rw [hn, Option.some_bind'] at h
      have hout : (pyShuffle p2.2 (p1.1 ++ p2.1)).1 = out := by
        have := congrArg (fun o => Option.map Prod.fst o) h
        simpa using this
      intro x hx
      rw [← hout] at hx
      have hx' := (pyShuffle_perm p2.2 (p1.1 ++ p2.1)).mem_iff.mp hx
      rcases List.mem_append.mp hx' with hx1 | hx2
      · exact List.mem_of_mem_filter (drawQuota_mem _ _ _ p1.1 p1.2 (by rw [← hd]) x hx1)
      · exact List.mem_of_mem_filter (drawQuota_mem _ _ _ p2.1 p2.2 (by rw [← hn]) x hx2)

/-- Witness for claim C10's theorem at a concrete input. -/
theorem sample_output_elements_from_input_witness :
    StratifiedSampler.sample (seedRNG fun _ => 0) [5, 6] 1 (1 / 2) (fun _ => true) =
        some ([5], RNG.mk (fun _ => 0) 1) ∧ (5 : Nat) ∈ [5, 6] := by
  have hpy : pyInt (((1 : Nat) : ℚ) * (1 / 2)) = 0 := by norm_num [pyInt]
  have heval : StratifiedSampler.sample (seedRNG fun _ => 0) [5, 6] 1 (1 / 2)
      (fun _ => true) = some ([5], RNG.mk (fun _ => 0) 1) := by
    unfold StratifiedSampler.sample sampleCore
    rw [show (([5, 6] : List Nat).filter fun _ => true) = [5, 6] from rfl,
      show (([5, 6] : List Nat).filter fun x => !true) = [] from rfl]
    rw [show ([5, 6] : List Nat).length = 2 from rfl,
      show ([] : List Nat).length = 0 from rfl, hpy]
    rfl
  exact ⟨heval, sample_output_elements_from_input (seedRNG fun _ => 0) [5, 6] 1 (1 / 2)
    (fun _ => true) [5] (RNG.mk (fun _ => 0) 1) heval 5 (by simp)⟩

/-! ## Deduplicator: idempotence (claim C9) -/

theorem dedupAux_idem :
    ∀ (ps : List Pattern) (seen : List (String × List String)),
      dedupAux seen (dedupAux seen ps) = dedupAux seen ps := by
  intro ps
  induction ps with
  | nil => intro seen; rfl
  | cons p rest ih =>
    intro seen
    by_cases h : patternKey p ∈ seen
    · rw [dedupAux, if_pos h, ih seen]
    · rw [dedupAux, if_neg h, dedupAux, if_neg h, ih (patternKey p :: seen)]

/-- Claim C9.  The pattern deduplicator is idempotent: applying
`deduplicate_patterns` (dedup keyed on `(label, tuple of token lower texts)`,
first occurrence kept, order preserved) twice yields the same list as applying
it once. -/
theorem deduplicatePatterns_idempotent (ps : List Pattern) :
    PatternFilter.deduplicatePatterns (PatternFilter.deduplicatePatterns ps) =
      PatternFilter.deduplicatePatterns ps :=
  dedupAux_idem ps []

/-! ## Generator validity bound (claim C4) -/

theorem isValidPattern_spec (cfg : GenSettings) (sw seen : List String) (p : String) :
    PatternGenerator.isValidPattern cfg sw seen p = true ↔
      (p ≠ "" ∧ p ∉ seen ∧ cfg.minPatternLength ≤ p.length ∧
        p.length ≤ cfg.maxPatternLength ∧
        (cfg.enableStopwordFilter = true → p ∉ sw)) := by
  unfold PatternGenerator.isValidPattern
  split_ifs with h1 h2 h3 h4 h5
  · simp [h1]
  · simp [h1, h2]
  · constructor
    · intro h; cases h
    · rintro ⟨-, -, hmin, -, -⟩; omega
  · constructor
    · intro h; cases h
    · rintro ⟨-, -, -, hmax, -⟩; omega
  · constructor
    · intro h; cases h
    · rintro ⟨-, -, -, -, hstop⟩
      exact absurd (hstop h5.1) (by simpa using h5.2)
  · simp only [true_iff]
    refine ⟨h1, h2, by omega, by omega, fun he hmem => h5 ⟨he, hmem⟩⟩

/-- Claim C4 (amended).  `_is_valid_pattern` accepts a candidate variant iff it
is non-empty, unseen, of length at least `min_pattern_length` (the lower bound
is inclusive: `len < min` is rejected, `len = min` accepted), of length at most
`max_pattern_length`, and not a stopword when the filter is enabled. -/
theorem isValidPattern_inclusive_bounds (cfg : GenSettings) (sw seen : List String)
    (p : String) :
    PatternGenerator.isValidPattern cfg sw seen p = true ↔
      (p ≠ "" ∧ p ∉ seen ∧ cfg.minPatternLength ≤ p.length ∧
        p.length ≤ cfg.maxPatternLength ∧
        (cfg.enableStopwordFilter = true → p ∉ sw)) :=
  isValidPattern_spec cfg sw seen p

/-- Counterexample to claim C4 as stated: with `min_pattern_length = 3`, the
previously unseen, non-stopword variant `"abc"` of length exactly 3 is accepted,
and extraction of an item containing the word `"abc"` DOES emit a pattern —
the lower bound is inclusive, not exclusive. -/
theorem length_equal_min_emits :
    PatternGenerator.isValidPattern ⟨3, 50, true⟩ ["the", "and"] [] "abc" = true ∧
      PatternGenerator.generatePatterns ⟨3, 50, true⟩ ["the", "and"] [["abc"]] =
        [{ label := "PHONETIC", pattern := [⟨some "abc"⟩] }] := by
  constructor
  · decide
  · decide

/-! ## Generator global uniqueness (claim C7) -/

theorem foldl_preserves {β γ : Type} (P : β → Prop) (f : β → γ → β)
    (hf : ∀ b a, P b → P (f b a)) : ∀ (l : List γ) (b : β), P b → P (l.foldl f b) := by
  intro l
  induction l with
  | nil => exact fun b hb => hb
  | cons a rest ih => exact fun b hb => ih (f b a) (hf b a hb)

theorem extractVariant_invariant (cfg : GenSettings) (sw : List String)
    (acc : List Pattern × List String) (v : String)
    (h : acc.2.Nodup ∧ acc.1.length = acc.2.length) :
    (extractVariant cfg sw acc v).2.Nodup ∧
      (extractVariant cfg sw acc v).1.length = (extractVariant cfg sw acc v).2.length := by
  unfold extractVariant
  split
  · next hv =>
    have hmem : v ∉ acc.2 := by
      have := (isValidPattern_spec cfg sw acc.2 v).mp hv
      exact this.2.1
    constructor
    · simp only [List.nodup_append, List.nodup_cons, List.nodup_nil]
      refine ⟨h.1, by simp, ?_⟩
      intro a ha hb
      simp only [List.mem_singleton] at hb
      subst hb
      exact hmem ha
    · simp [h.2]
  · exact h

theorem runExtraction_invariant (cfg : GenSettings) (sw : List String)
    (corpus : List (List String)) :
    (runExtraction cfg sw corpus).2.Nodup ∧
      (runExtraction cfg sw corpus).1.length = (runExtraction cfg sw corpus).2.length := by
  refine foldl_preserves
    (fun acc => acc.2.Nodup ∧ acc.1.length = acc.2.length)
    (extractItem cfg sw) ?_ corpus ([], []) (by simp)
  intro acc words hacc
  refine foldl_preserves (fun acc => acc.2.Nodup ∧ acc.1.length = acc.2.length)
    (extractWord cfg sw) ?_ words acc hacc
  intro acc' w hacc'
  exact foldl_preserves (fun acc => acc.2.Nodup ∧ acc.1.length = acc.2.length)
    (extractVariant cfg sw)
    (fun b a hb => extractVariant_invariant cfg sw b a hb) (wordVariants w) acc' hacc'

/-- Claim C7 (amended).  Across a whole extraction run (the `seen_patterns` set
is never reset between items) the accepted variant strings are pairwise
distinct, and exactly one pattern is emitted per accepted variant; uniqueness
of the emitted `(label, tokens)` keys themselves does not hold, because two
distinct variant strings that differ only in whitespace split to the same
token sequence. -/
theorem extraction_variant_uniqueness (cfg : GenSettings) (sw : List String)
    (corpus : List (List String)) :
    (runExtraction cfg sw corpus).2.Nodup ∧
      (runExtraction cfg sw corpus).1.length = (runExtraction cfg sw corpus).2.length :=
  runExtraction_invariant cfg sw corpus

/-- Counterexample to claim C7 as stated: the item words `"a b"` and `"a  b"`
(double space) are distinct variant strings, so the global `seen` check blocks
neither, yet both split to the tokens `["a", "b"]`: one run emits two patterns
with identical `(label, tokens)` tuples. -/
theorem duplicate_label_tokens_emitted :
    ((PatternGenerator.generatePatterns ⟨3, 50, false⟩ [] [["a b", "a  b"]]).map patternKey =
        [("PHONETIC", ["a", "b"]), ("PHONETIC", ["a", "b"])]) ∧
      ¬ ((PatternGenerator.generatePatterns ⟨3, 50, false⟩ [] [["a b", "a  b"]]).map
          patternKey).Nodup := by
  constructor
  · decide
  · decide

/-! ## Phonetic classifier (claim C8) -/

/-- Claim C8.  For every dialogue item and pattern set, the classifier returns
true iff some whitespace token of the lowercased utterance, cleaned of every
character that is not alphanumeric and not `'` or `-`, belongs to the pattern
set; in particular `"he said heben to me"` matches against `{"heben"}` and
`"he said hello to me"` does not. -/
theorem isPhonetized_iff_token_match :
    (∀ (pats : Finset String) (item : GeminiDataItem),
      StratifiedSampler.isPhonetizedGemini pats item = true ↔
        ∃ w ∈ pySplit (pyLower item.utterance), cleanWord w ∈ pats) ∧
      StratifiedSampler.isPhonetizedGemini {"heben"}
        { utterance := "he said heben to me" } = true ∧
      StratifiedSampler.isPhonetizedGemini {"heben"}
        { utterance := "he said hello to me" } = false := by
  refine ⟨fun pats item => ?_, ?_, ?_⟩
  · simp [StratifiedSampler.isPhonetizedGemini, List.any_eq_true]
  · decide
  · decide

/-! ## Pattern loading (claim C5) -/

theorem loadPatternsAux_union (ex : Finset String) :
    ∀ (lines : List PatternLine) (acc : Finset String),
      loadPatternsAux ex lines acc =
        acc ∪ recordedTokens ex (lines.takeWhile fun l => ! l.isMalformed) := by
  intro lines
  induction lines with
  | nil => intro acc; simp [loadPatternsAux, recordedTokens]
  | cons l rest ih =>
    intro acc
    match l with
    | .blank =>
      rw [loadPatternsAux, ih acc]
      simp [List.takeWhile_cons, PatternLine.isMalformed, recordedTokens]
    | .malformed =>
      rw [loadPatternsAux]
      simp [List.takeWhile_cons, PatternLine.isMalformed, recordedTokens]
    | .record none =>
      rw [loadPatternsAux, ih acc]
      simp [List.takeWhile_cons, PatternLine.isMalformed, recordedTokens]
    | .record (some []) =>
      rw [loadPatternsAux, ih acc]
      simp [List.takeWhile_cons, PatternLine.isMalformed, recordedTokens]
    | .record (some (t :: ts)) =>
      rw [loadPatternsAux, ih]
      simp only [List.takeWhile_cons, PatternLine.isMalformed, Bool.not_false,
        recordedTokens]
      split
      · next h => rw [Finset.insert_union, Finset.union_insert]
      · rfl

/-- Claim C5 (amended).  `_load_patterns` never raises, but it does not skip
malformed lines individually: the single `try/except` wraps the whole loop, so
the first line on which parsing raises aborts the load, and the returned set
contains exactly the (non-empty, non-exception) first-token texts of the
well-formed records strictly before the first malformed line.  Records that
merely lack a usable `pattern` field are skipped individually. -/
theorem loadPatterns_stops_at_first_malformed (ex : Finset String)
    (lines : List PatternLine) :
    StratifiedSampler.loadPatterns ex lines =
      recordedTokens ex (lines.takeWhile fun l => ! l.isMalformed) := by
  unfold StratifiedSampler.loadPatterns
  rw [loadPatternsAux_union ex lines ∅]
  simp

/-- Counterexample to claim C5 as stated: in a file whose second line is
unparsable, the well-formed third record's token `"bb"` is NOT in the returned
set — processing does not continue past the malformed line. -/
theorem malformed_line_aborts_loading :
    (StratifiedSampler.loadPatterns ∅
        [PatternLine.record (some [⟨some "aa"⟩]), PatternLine.malformed,
          PatternLine.record (some [⟨some "bb"⟩])] = {"aa"}) ∧
      "bb" ∉ StratifiedSampler.loadPatterns ∅
        [PatternLine.record (some [⟨some "aa"⟩]), PatternLine.malformed,
          PatternLine.record (some [⟨some "bb"⟩])] := by
  constructor
  · decide
  · decide

/-! ## Formatter (claim C3) -/

/-- Claim C3 (code bug).  `format_gemini_data` reads `gemini_item.source_file`,
a field `GeminiDataItem` does not declare and nothing ever sets, so the call
raises `AttributeError` (result `none`) for every dialogue item instead of
returning the annotation-ready record the claim describes. -/
theorem formatGeminiData_always_raises (item : GeminiDataItem) (b : Bool) :
    ProdigyFormatter.formatGeminiData item b = none := rfl

end PhoneticsAnno
